import Mathlib

/-!
# Verification of the GPT training/generation codebase

A shallow embedding, in Lean 4, of the numeric core of the repository
(`src/codebase.py`): the dataset item construction, the warmup-cosine
learning-rate scheduler, the masked cross-entropy loss, the attention-mask
expansion, the weight-tied output projection, the sinusoidal positional
encoding, nucleus (top-p) filtering, and the autoregressive generation loop.

Modelling conventions:
* Python floats are modelled as real numbers (`ℝ`); `float('-inf')` produced
  by nucleus filtering is modelled as `⊥ : EReal`.
* Tensors are modelled as nested lists (one list level per tensor dimension)
  or as functions out of `Fin`, matching the dimension order of the source.
* Python exceptions (`raise ValueError`) are modelled with `Except String`;
  a `NaN` result of an empty mean-reduction is modelled as `Option.none`
  (it is a value, not an exception).
* The categorical sampling step draws external randomness; it is modelled as
  an oracle `sample : ℕ → List ℝ → ℤ` receiving the step index and the
  probability vector, matching the design note that the code does not seed
  its own randomness.
-/

/-! ## Dataset: `TokenizedTextDataset.__getitem__` (src/codebase.py lines 44-67) -/

/-- One token line of the dataset, already parsed to integers
(`list(map(int, line.split()))`); the numeric padding/truncation/split logic
of `__getitem__`.  The attention mask is a float tensor in the source, hence
`List ℝ` here.  Returns `(input_sequence, target_sequence, attention_mask)`. -/
def TokenizedTextDataset.getItem (line : List ℤ) (sequence_length : ℕ)
    (padding_token : ℤ) : List ℤ × List ℤ × List ℝ :=
  -- Padding or truncating the sequence
  let sequence :=
    if line.length < sequence_length then
      line ++ List.replicate (sequence_length - line.length) padding_token
    else
      line.take sequence_length
  -- Generate an attention mask for the sequence (1 if token != padding_token else 0)
  let attention_mask := sequence.map (fun token => if token ≠ padding_token then (1 : ℝ) else 0)
  -- input = sequence[:-1], target = sequence[1:], mask = attention_mask[:-1]
  (sequence.dropLast, sequence.drop 1, attention_mask.dropLast)

/-- The padded-or-truncated sequence of length `sequence_length` that
`__getitem__` builds before the shift-by-one split. -/
def TokenizedTextDataset.paddedLine (line : List ℤ) (sequence_length : ℕ)
    (padding_token : ℤ) : List ℤ :=
  if line.length < sequence_length then
    line ++ List.replicate (sequence_length - line.length) padding_token
  else
    line.take sequence_length

/-- The dataset item as the claim words it: `input = tokens[0:S-1]`,
`target = tokens[1:S]`, and the mask `(1 iff token != padding_token)`
computed over the input slice only, all of the padded/truncated sequence. -/
def TokenizedTextDataset.getItemSpec (line : List ℤ) (sequence_length : ℕ)
    (padding_token : ℤ) : List ℤ × List ℤ × List ℝ :=
  let tokens := TokenizedTextDataset.paddedLine line sequence_length padding_token
  (tokens.take (sequence_length - 1),
   (tokens.drop 1).take (sequence_length - 1),
   (tokens.take (sequence_length - 1)).map
     (fun token => if token ≠ padding_token then (1 : ℝ) else 0))

theorem TokenizedTextDataset.paddedLine_length (line : List ℤ) (S : ℕ) (p : ℤ) :
    (TokenizedTextDataset.paddedLine line S p).length = S := by
  unfold TokenizedTextDataset.paddedLine
  split
  · simp only [List.length_append, List.length_replicate]
    omega
  · simp only [List.length_take]
    omega

/-- C8: for every raw token line and configured sequence length `S`, the
dataset item is built by first right-padding with `padding_token` (if shorter
than `S`) or truncating to `S` (if longer), then splitting into
`input = tokens[0:S-1]` and `target = tokens[1:S]`, with the attention mask
(`1` iff `token ≠ padding_token`) taken over the input slice only; in
particular for the line `1 2 3 4 5` and `S = 4`, `input = [1,2,3]` and
`target = [2,3,4]`. -/
theorem C8_dataset_split (line : List ℤ) (S : ℕ) (p : ℤ) :
    TokenizedTextDataset.getItem line S p = TokenizedTextDataset.getItemSpec line S p ∧
    TokenizedTextDataset.getItem [1, 2, 3, 4, 5] 4 0 =
      ([1, 2, 3], [2, 3, 4], [1, 1, 1]) := by
  constructor
  · have hlen := TokenizedTextDataset.paddedLine_length line S p
    unfold TokenizedTextDataset.getItem TokenizedTextDataset.getItemSpec
    simp only
    have hseq : (if line.length < S then
        line ++ List.replicate (S - line.length) p else line.take S) =
        TokenizedTextDataset.paddedLine line S p := rfl
    rw [hseq]
    simp only [Prod.mk.injEq]
    refine ⟨?_, ?_, ?_⟩
    · rw [List.dropLast_eq_take, hlen]
    · rw [List.take_of_length_le]
      simp [hlen]
    · rw [List.dropLast_eq_take, List.length_map, hlen, List.map_take]
  · norm_num [TokenizedTextDataset.getItem]

/-! ## Learning-rate scheduler: `WarmupCosineLR.get_lr` (src/codebase.py lines 397-404) -/

/-- `WarmupCosineLR.get_lr`: for `last_epoch < warmup_steps` the scale is
`last_epoch / warmup_steps` (Python true division of ints); otherwise
`progress = (last_epoch - warmup_steps) / (total_steps - warmup_steps)` and
the scale is `0.5 * (1.0 + torch.cos(progress))` — note the source applies
`cos` to the raw progress, with no `π` factor.  The returned list is
`[base_lr * lr_scale + min_lr for base_lr in base_lrs]`. -/
noncomputable def WarmupCosineLR.get_lr (warmup_steps total_steps : ℕ) (min_lr : ℝ)
    (base_lrs : List ℝ) (last_epoch : ℕ) : List ℝ :=
  if last_epoch < warmup_steps then
    base_lrs.map (fun base_lr =>
      base_lr * ((last_epoch : ℝ) / (warmup_steps : ℝ)) + min_lr)
  else
    base_lrs.map (fun base_lr =>
      base_lr * (0.5 * (1.0 + Real.cos
        (((last_epoch : ℝ) - (warmup_steps : ℝ)) /
         ((total_steps : ℝ) - (warmup_steps : ℝ))))) + min_lr)

/-- C2: the code omits the `π` factor inside the cosine.  With
`warmup_steps = 1`, `total_steps = 2`, `min_lr = 0`, `base_lrs = [1]`, at
`t = total_steps = 2` the scheduler returns `0.5 * (1 + cos 1)`, which is not
the claimed `min_rate = 0` (the claimed formula `0.5 * (1 + cos (π·1))` would
give `0`). -/
theorem C2_cosine_missing_pi :
    WarmupCosineLR.get_lr 1 2 0 [1] 2 = [0.5 * (1 + Real.cos 1)] ∧
    0.5 * (1 + Real.cos 1) ≠ 0 := by
  constructor
  · unfold WarmupCosineLR.get_lr
    norm_num
  · have h1 : 0 < Real.cos 1 := by
      apply Real.cos_pos_of_mem_Ioo
      constructor
      · nlinarith [Real.pi_gt_three]
      · nlinarith [Real.pi_gt_three]
    nlinarith

/-! ## Sinusoidal positional encoding (src/codebase.py lines 533-539) -/

/-- The number of indices of `torch.arange(start, stop, step)`, which is also
the width of the slice `[start::step]` of a dimension of size `stop`. -/
def arangeLen (start stop step : ℕ) : ℕ := (stop - start + step - 1) / step

/-- `div_term = torch.exp(torch.arange(0, embed_size, 2).float() *
(-math.log(10000.0) / embed_size))`; entry `i` corresponds to arange value
`2 * i`. -/
noncomputable def divTerm (embed_size : ℕ) (i : ℕ) : ℝ :=
  Real.exp ((2 * i : ℝ) * (-Real.log 10000 / embed_size))

/-- `sinusoidal_positional_encoding(embed_size, max_len)`:
`pe[:, 0::2] = sin(position * div_term)` and
`pe[:, 1::2] = cos(position * div_term)`, returned with a leading unsqueezed
dimension, so the shape is `(1, max_len, embed_size)`.  A pure function of
its two arguments — no model state enters.  The slice assignment
`pe[:, 1::2] = ...` requires the number of odd columns
(`arangeLen 1 embed_size 2`) to equal the length of `div_term`
(`arangeLen 0 embed_size 2`); when they differ PyTorch raises a shape
mismatch `RuntimeError`, modelled as `none`.  (The even-column assignment
always matches, its width being exactly the length of `div_term`.) -/
noncomputable def sinusoidal_positional_encoding (embed_size max_len : ℕ) :
    Option (Fin 1 → Fin max_len → Fin embed_size → ℝ) :=
  if arangeLen 1 embed_size 2 = arangeLen 0 embed_size 2 then
    some (fun _ pos c =>
      if c.val % 2 = 0 then Real.sin ((pos : ℝ) * divTerm embed_size (c.val / 2))
      else Real.cos ((pos : ℝ) * divTerm embed_size (c.val / 2)))
  else none

theorem mul_divTerm (x : ℝ) (E i : ℕ) :
    x * divTerm E i = x / (10000 : ℝ) ^ ((2 * i : ℝ) / E) := by
  unfold divTerm
  rw [Real.rpow_def_of_pos (by norm_num), eq_div_iff (Real.exp_ne_zero _),
    mul_assoc, ← Real.exp_add]
  have h : 2 * (i : ℝ) * (-Real.log 10000 / E) + Real.log 10000 * (2 * i / E) = 0 := by
    ring
  rw [h, Real.exp_zero, mul_one]

/-- C9 counterexample: at `embed_size = 3` (odd) and `max_len = 1` the
encoder does not return a table at all: the assignment into the odd columns
is a shape mismatch (`div_term` has 2 entries, the odd slice has width 1),
so the source raises instead of returning the claimed `(1, L, E)` table. -/
theorem C9_counterexample :
    sinusoidal_positional_encoding 3 1 = none := by
  simp [sinusoidal_positional_encoding, arangeLen]

/-- C9 (amended): for every even `embed_size E` and every `max_len L`, the
positional encoder returns a table of shape `(1, L, E)` — encoded in the
index types `Fin 1 → Fin L → Fin E` — with
`P[0, pos, 2i] = sin(pos / 10000^(2i/E))` and
`P[0, pos, 2i+1] = cos(pos / 10000^(2i/E))`, deterministically and
independently of any model state (the definition is a pure function of
`E` and `L`). -/
theorem C9_sinusoidal_encoding_even (E L : ℕ) (hE : E % 2 = 0) :
    ∃ P, sinusoidal_positional_encoding E L = some P ∧
      ∀ (pos : Fin L) (i : ℕ) (h2 : 2 * i < E) (h3 : 2 * i + 1 < E),
        P 0 pos ⟨2 * i, h2⟩ =
          Real.sin ((pos : ℝ) / (10000 : ℝ) ^ ((2 * i : ℝ) / E)) ∧
        P 0 pos ⟨2 * i + 1, h3⟩ =
          Real.cos ((pos : ℝ) / (10000 : ℝ) ^ ((2 * i : ℝ) / E)) := by
  have hcond : arangeLen 1 E 2 = arangeLen 0 E 2 := by
    unfold arangeLen
    omega
  refine ⟨_, by rw [sinusoidal_positional_encoding, if_pos hcond], ?_⟩
  intro pos i h2 h3
  constructor
  · have hmod : (2 * i) % 2 = 0 := by omega
    have hdiv : (2 * i) / 2 = i := by omega
    simp only [hmod, hdiv, if_pos]
    rw [mul_divTerm]
  · have hmod : (2 * i + 1) % 2 = 1 := by omega
    have hdiv : (2 * i + 1) / 2 = i := by omega
    simp only [hmod, hdiv]
    norm_num
    rw [mul_divTerm]

/-- C9 witness: the amended theorem applied at `E = 2`, `L = 1`. -/
theorem C9_witness :
    ∃ P, sinusoidal_positional_encoding 2 1 = some P ∧
      ∀ (pos : Fin 1) (i : ℕ) (h2 : 2 * i < 2) (h3 : 2 * i + 1 < 2),
        P 0 pos ⟨2 * i, h2⟩ =
          Real.sin ((pos : ℝ) / (10000 : ℝ) ^ ((2 * i : ℝ) / 2)) ∧
        P 0 pos ⟨2 * i + 1, h3⟩ =
          Real.cos ((pos : ℝ) / (10000 : ℝ) ^ ((2 * i : ℝ) / 2)) :=
  C9_sinusoidal_encoding_even 2 1 (by norm_num)

/-! ## Masked loss: `GPTModel.masked_loss` (src/codebase.py lines 341-352) -/

/-- `F.cross_entropy(input, target)` with its default mean reduction: the
mean over rows of `log (Σ exp row) - row[target]` (the exact value of
`-log_softmax(row)[target]`).  PyTorch's mean reduction over zero elements
yields `NaN` and raises no exception; the `NaN` outcome is modelled as
`none`, every other outcome as `some`.  There is no error path. -/
noncomputable def cross_entropy (input : List (List ℝ)) (target : List ℤ) : Option ℝ :=
  if input.length = 0 then none
  else
    some ((((input.zip target).map
      (fun p => Real.log ((p.1.map Real.exp).sum) - p.1.getD p.2.toNat 0)).sum) /
      input.length)

/-- `GPTModel.masked_loss(outputs, targets, masks)`: flatten outputs to
`(-1, vocab_size)` and targets to `(-1)`, build the boolean mask
`masks.view(-1) == 1`, select the rows where the mask holds, and call
`F.cross_entropy` on exactly the selected rows.  The source contains no
`raise` and no emptiness check. -/
noncomputable def GPTModel.masked_loss (outputs : List (List (List ℝ)))
    (targets : List (List ℤ)) (masks : List (List ℝ)) : Option ℝ :=
  -- Flatten outputs and targets: outputs.view(-1, vocab_size), targets.view(-1)
  let outputs_flat := outputs.flatten
  let targets_flat := targets.flatten
  -- mask = masks.view(-1) == 1
  let mask := masks.flatten.map (fun v => decide (v = 1))
  -- outputs_masked = outputs_flat[mask], targets_masked = targets_flat[mask]
  let outputs_masked := ((outputs_flat.zip mask).filter (fun p => p.2)).map (fun p => p.1)
  let targets_masked := ((targets_flat.zip mask).filter (fun p => p.2)).map (fun p => p.1)
  cross_entropy outputs_masked targets_masked

/-- C3: with an all-zero mask (a batch of one padding position, outputs
`[[1, 2]]`, targets `[0]`, mask `[0]`), `masked_loss` selects zero rows and
hands them to `F.cross_entropy`, whose empty mean reduction produces `NaN`
(`none` in this model) — no explicit error is raised, contradicting the
claim that the mask-selects-zero-positions case must raise. -/
theorem C3_empty_mask_nan_not_error :
    GPTModel.masked_loss [[[(1 : ℝ), 2]]] [[0]] [[(0 : ℝ)]] = none := by
  unfold GPTModel.masked_loss cross_entropy
  simp

/-! ## Weight tying: `GPTModel.__init__` (src/codebase.py lines 300-308) -/

/-- A reference-level view of `nn.Linear`: which tensor slot holds its
weight, and (optionally) which holds its bias. -/
structure LinearRef where
  weight : ℕ
  bias : Option ℕ

/-- The reference-level parameter wiring of `GPTModel`: which tensor slot the
embedding weight and the output projection read from. -/
structure GPTModelRefs where
  embedding_weight : ℕ
  output_layer : LinearRef

/-- The parameter wiring performed by `GPTModel.__init__`:
`self.embedding = nn.Embedding(vocab_size, embed_size)` allocates the
embedding weight tensor (slot 0);
`self.output_layer = nn.Linear(embed_size, vocab_size, bias=False)`
allocates a fresh weight tensor (slot 1) and no bias; the assignment
`self.output_layer.weight = self.embedding.weight` then rebinds the output
projection's weight to the very tensor of the embedding.  Tensor contents
live in a store indexed by slot number; the model holds references only, so
any in-place update of the store (an optimizer step) is seen identically
through both references. -/
def GPTModel.initRefs : GPTModelRefs :=
  let embedding_weight := 0
  let fresh_linear : LinearRef := { weight := 1, bias := none }
  let output_layer : LinearRef := { fresh_linear with weight := embedding_weight }
  { embedding_weight := embedding_weight, output_layer := output_layer }

/-- C7: the output projection has no bias, its weight reference is the very
reference of the embedding weight, and therefore after any store mutation
(any optimizer step) the tensors read through the two references are
identical — updating one updates the other. -/
theorem C7_weight_tying :
    GPTModel.initRefs.output_layer.bias = none ∧
    GPTModel.initRefs.output_layer.weight = GPTModel.initRefs.embedding_weight ∧
    ∀ (store : ℕ → List (List ℝ))
      (optimizer_step : (ℕ → List (List ℝ)) → (ℕ → List (List ℝ))),
      optimizer_step store GPTModel.initRefs.output_layer.weight =
        optimizer_step store GPTModel.initRefs.embedding_weight :=
  ⟨rfl, rfl, fun _ _ => rfl⟩

/-! ## Mask expansion: `GPTModel.create_mask` (src/codebase.py lines 331-339) -/

/-- `mask.unsqueeze(1)`: `(B, S) → (B, 1, S)`. -/
def unsqueezeDim1 (m : List (List ℝ)) : List (List (List ℝ)) :=
  m.map (fun row => [row])

/-- `t.repeat(1, k, 1)` on a three-dimensional tensor: tile dimension 1
`k` times. -/
def repeatDim1 (k : ℕ) (t : List (List (List ℝ))) : List (List (List ℝ)) :=
  t.map (fun slab => (List.replicate k slab).flatten)

/-- `t.view(d0 * d1, 1, d2)` on a `(d0, d1, d2)` tensor: merge the first two
dimensions (row-major, so the outer flatten is exactly the memory order) and
re-insert a singleton dimension 1. -/
def viewMergeDims01 (t : List (List (List ℝ))) : List (List (List ℝ)) :=
  t.flatten.map (fun row => [row])

/-- `GPTModel.create_mask(mask, current_seq_length)`:
`mask.unsqueeze(1)` to `(B, 1, S)`, `.repeat(1, heads, 1)` to `(B, H, S)`,
`.view(B * H, 1, S)`, `.repeat(1, current_seq_length, 1)` to
`(B * H, S, S)`. -/
def GPTModel.create_mask (heads : ℕ) (current_seq_length : ℕ)
    (mask : List (List ℝ)) : List (List (List ℝ)) :=
  repeatDim1 current_seq_length
    (viewMergeDims01 (repeatDim1 heads (unsqueezeDim1 mask)))

/-- C6: for a per-token mask of shape `(batch, seq_len)`, the expansion is
exactly the mask replicated first across heads and then across the query
dimension: batch row `b` contributes `heads` consecutive `(S, S)` slabs, each
equal to `replicate S (mask[b])`, so the output has `batch * heads` slabs of
`S` identical rows — every query position shares the same key-validity row,
and the expanded mask has no dependence on the query index (no causal /
triangular structure is introduced here, and `forward` passes this very
tensor unchanged to every layer). -/
theorem C6_create_mask (heads current_seq_length : ℕ) (mask : List (List ℝ)) :
    GPTModel.create_mask heads current_seq_length mask =
      mask.flatMap (fun row =>
        List.replicate heads (List.replicate current_seq_length row)) ∧
    (GPTModel.create_mask heads current_seq_length mask).length =
      mask.length * heads ∧
    ∀ slab ∈ GPTModel.create_mask heads current_seq_length mask,
      ∃ row ∈ mask, slab = List.replicate current_seq_length row := by
  have hmain : GPTModel.create_mask heads current_seq_length mask =
      mask.flatMap (fun row =>
        List.replicate heads (List.replicate current_seq_length row)) := by
    unfold GPTModel.create_mask repeatDim1 viewMergeDims01 unsqueezeDim1
    simp only [List.map_map, Function.comp_def]
    simp [List.flatMap_def, List.map_flatten, List.map_map, Function.comp_def]
  refine ⟨hmain, ?_, ?_⟩
  · rw [hmain, List.length_flatMap]
    simp [Function.comp_def, mul_comm]
  · intro slab hslab
    rw [hmain] at hslab
    simp only [List.mem_flatMap, List.mem_replicate] at hslab
    obtain ⟨row, hrow, _, hs⟩ := hslab
    exact ⟨row, hrow, hs⟩

/-- C6 witness: the expansion at the concrete mask `[[1, 0]]` with 2 heads
and sequence length 2. -/
theorem C6_witness :
    GPTModel.create_mask 2 2 [[(1 : ℝ), 0]] =
      [[[1, 0], [1, 0]], [[1, 0], [1, 0]]] := by
  rw [(C6_create_mask 2 2 [[(1 : ℝ), 0]]).1]
  rfl

/-! ## Nucleus (top-p) filtering: `top_p_filtering` (src/codebase.py lines 471-485) -/

/-- `F.softmax` over a one-dimensional logits vector. -/
noncomputable def softmaxF {n : ℕ} (f : Fin n → ℝ) : Fin n → ℝ :=
  fun i => Real.exp (f i) / ∑ j, Real.exp (f j)

/-- `torch.sort(logits, descending=True)`: the sorting permutation.
`sorted_indices[j] = sortPerm logits j` and the sorted values are
`logits ∘ sortPerm logits`, nonincreasing in `j`. -/
noncomputable def sortPerm {n : ℕ} (logits : Fin n → ℝ) : Equiv.Perm (Fin n) :=
  Tuple.sort (fun i => -logits i)

/-- `sorted_logits`, the descending rearrangement of `logits`. -/
noncomputable def sorted_logits {n : ℕ} (logits : Fin n → ℝ) : Fin n → ℝ :=
  fun j => logits (sortPerm logits j)

/-- `cumulative_probs = torch.cumsum(F.softmax(sorted_logits, dim=-1),
dim=-1)`. -/
noncomputable def cumulative_probs {n : ℕ} (logits : Fin n → ℝ) : Fin n → ℝ :=
  fun j => ∑ k ∈ Finset.Iic j, softmaxF (sorted_logits logits) k

/-- `sorted_indices_to_remove` after the in-place right shift
(`[..., 1:] = [..., :-1]; [..., 0] = 0`): position `0` is cleared, and
position `j ≥ 1` holds the pre-shift flag of position `j - 1`, namely
`cumulative_probs[j - 1] > top_p`. -/
def shiftedRemove {n : ℕ} (cum : Fin n → ℝ) (top_p : ℝ) (j : Fin n) : Prop :=
  0 < j.val ∧
    top_p < cum ⟨j.val - 1, Nat.lt_of_le_of_lt (Nat.sub_le _ _) j.isLt⟩

noncomputable instance {n : ℕ} (cum : Fin n → ℝ) (top_p : ℝ) (j : Fin n) :
    Decidable (shiftedRemove cum top_p j) := by
  unfold shiftedRemove
  infer_instance

/-- `top_p_filtering(logits, top_p)`: sort descending, take cumulative
softmax probabilities, right-shift the `> top_p` flags (always keeping the
first sorted token), scatter the flags back through `sorted_indices`, and
set flagged entries to `filter_value = -float('Inf')` (modelled as
`⊥ : EReal`); unflagged entries keep their logit. -/
noncomputable def top_p_filtering {n : ℕ} (logits : Fin n → ℝ) (top_p : ℝ) :
    Fin n → EReal :=
  fun i =>
    if shiftedRemove (cumulative_probs logits) top_p ((sortPerm logits).symm i)
    then ⊥ else (logits i : EReal)

theorem sorted_logits_antitone {n : ℕ} (logits : Fin n → ℝ) :
    Antitone (sorted_logits logits) := by
  intro a b hab
  have h := Tuple.monotone_sort (fun i => -logits i) hab
  simp only [Function.comp_apply, neg_le_neg_iff] at h
  exact h

theorem softmaxF_nonneg {n : ℕ} (f : Fin n → ℝ) (i : Fin n) :
    0 ≤ softmaxF f i :=
  div_nonneg (Real.exp_pos _).le (Finset.sum_nonneg fun _ _ => (Real.exp_pos _).le)

theorem softmaxF_sum_one {n : ℕ} (hn : 0 < n) (f : Fin n → ℝ) :
    ∑ i, softmaxF f i = 1 := by
  unfold softmaxF
  rw [← Finset.sum_div]
  apply div_self
  have hne : Nonempty (Fin n) := ⟨⟨0, hn⟩⟩
  exact (Finset.sum_pos (fun j _ => Real.exp_pos (f j)) Finset.univ_nonempty).ne'

theorem cumulative_probs_le_one {n : ℕ} (logits : Fin n → ℝ) (j : Fin n) :
    cumulative_probs logits j ≤ 1 := by
  have hn : 0 < n := j.pos
  calc cumulative_probs logits j
      ≤ ∑ k, softmaxF (sorted_logits logits) k :=
        Finset.sum_le_sum_of_subset_of_nonneg (Finset.subset_univ _)
          (fun i _ _ => softmaxF_nonneg _ i)
    _ = 1 := softmaxF_sum_one hn _

theorem cumulative_probs_mono {n : ℕ} (logits : Fin n → ℝ) :
    Monotone (cumulative_probs logits) := fun _ _ hab =>
  Finset.sum_le_sum_of_subset_of_nonneg (Finset.Iic_subset_Iic.mpr hab)
    (fun i _ _ => softmaxF_nonneg _ i)

theorem cumulative_probs_zero {n : ℕ} (logits : Fin n → ℝ) (hn : 0 < n) :
    cumulative_probs logits ⟨0, hn⟩ = softmaxF (sorted_logits logits) ⟨0, hn⟩ := by
  unfold cumulative_probs
  have hIic : Finset.Iic (⟨0, hn⟩ : Fin n) = {⟨0, hn⟩} := by
    ext k
    simp only [Finset.mem_Iic, Finset.mem_singleton, Fin.le_def, Fin.ext_iff]
    omega
  rw [hIic, Finset.sum_singleton]

/-- C5: nucleus filtering sorts the logits descending, takes cumulative
softmax probabilities, and sets to `-∞` exactly the tokens whose
right-shifted-by-one cumulative probability exceeds `top_p`
(`shiftedRemove`), always keeping the token ranked first by the sort; for
`top_p = 1` no token is filtered out, and whenever `0 ≤ top_p` lies below
the top token's probability mass (the `top_p → 0` regime) only the single
highest-probability token survives — every other token is `-∞`, the
survivor keeps its logit, and its logit is maximal. -/
theorem C5_top_p_filtering {n : ℕ} (logits : Fin n → ℝ) (top_p : ℝ) :
    (∀ i, top_p_filtering logits top_p i = ⊥ ↔
      shiftedRemove (cumulative_probs logits) top_p ((sortPerm logits).symm i)) ∧
    (∀ i, ((sortPerm logits).symm i).val = 0 →
      top_p_filtering logits top_p i = (logits i : EReal)) ∧
    (top_p = 1 → ∀ i, top_p_filtering logits top_p i = (logits i : EReal)) ∧
    (∀ hn : 0 < n, 0 ≤ top_p →
      top_p < softmaxF (sorted_logits logits) ⟨0, hn⟩ →
      (∀ i, logits i ≤ logits (sortPerm logits ⟨0, hn⟩)) ∧
      top_p_filtering logits top_p (sortPerm logits ⟨0, hn⟩) =
        (logits (sortPerm logits ⟨0, hn⟩) : EReal) ∧
      (∀ i, i ≠ sortPerm logits ⟨0, hn⟩ →
        top_p_filtering logits top_p i = ⊥)) := by
  have hkeep : ∀ i, ((sortPerm logits).symm i).val = 0 →
      top_p_filtering logits top_p i = (logits i : EReal) := by
    intro i h0
    unfold top_p_filtering
    rw [if_neg]
    rintro ⟨hpos, -⟩
    omega
  refine ⟨?_, hkeep, ?_, ?_⟩
  · intro i
    unfold top_p_filtering
    split
    · simpa using by assumption
    · simpa [EReal.coe_ne_bot] using by assumption
  · intro h1 i
    unfold top_p_filtering
    rw [if_neg]
    rintro ⟨-, hgt⟩
    rw [h1] at hgt
    exact absurd hgt (not_lt.mpr (cumulative_probs_le_one logits _))
  · intro hn h0p htop
    have hmax : ∀ i, logits i ≤ logits (sortPerm logits ⟨0, hn⟩) := by
      intro i
      have hle : (⟨0, hn⟩ : Fin n) ≤ (sortPerm logits).symm i := by
        simp [Fin.le_def]
      have := sorted_logits_antitone logits hle
      simpa [sorted_logits] using this
    refine ⟨hmax, hkeep _ (by simp), ?_⟩
    intro i hne
    unfold top_p_filtering
    rw [if_pos]
    have hvalpos : 0 < ((sortPerm logits).symm i).val := by
      rcases Nat.eq_zero_or_pos ((sortPerm logits).symm i).val with h | h
      · exfalso
        apply hne
        have : (sortPerm logits).symm i = ⟨0, hn⟩ := by
          apply Fin.ext
          simpa using h
        calc i = sortPerm logits ((sortPerm logits).symm i) := by simp
          _ = sortPerm logits ⟨0, hn⟩ := by rw [this]
      · exact h
    refine ⟨hvalpos, ?_⟩
    calc top_p < softmaxF (sorted_logits logits) ⟨0, hn⟩ := htop
      _ = cumulative_probs logits ⟨0, hn⟩ := (cumulative_probs_zero logits hn).symm
      _ ≤ cumulative_probs logits
          ⟨((sortPerm logits).symm i).val - 1, _⟩ :=
        cumulative_probs_mono logits (by simp [Fin.le_def])

/-- C5 witness: the filtering at `n = 1`, `logits = (fun _ => 0)`,
`top_p = 1`, token `0` is kept unchanged. -/
theorem C5_witness :
    top_p_filtering (fun _ : Fin 1 => (0 : ℝ)) 1 0 = ((0 : ℝ) : EReal) :=
  (C5_top_p_filtering (fun _ : Fin 1 => (0 : ℝ)) 1).2.2.1 rfl 0

/-! ## Forward pass and autoregressive generation
(`GPTModel.forward`, src/codebase.py lines 310-329; `generate_text`,
lines 487-525) -/

/-- `exp` extended to `EReal` logits: `exp (-∞) = 0` (tokens filtered out by
`top_p_filtering` receive probability zero in the softmax that follows). -/
noncomputable def expE (x : EReal) : ℝ :=
  if x = ⊥ then 0 else Real.exp x.toReal

/-- `F.softmax` over a list of possibly `-∞` logits. -/
noncomputable def softmaxE (l : List EReal) : List ℝ :=
  l.map (fun x => expE x / (l.map expE).sum)

/-- `top_p_filtering` on a one-dimensional tensor given as a list, the form
the generation loop consumes (`assert logits.dim() == 1` holds by type). -/
noncomputable def top_p_filteringL (logits : List ℝ) (top_p : ℝ) : List EReal :=
  List.ofFn (fun i : Fin logits.length =>
    top_p_filtering (fun j => logits.get j) top_p i)

/-- Dot product of two real vectors. -/
noncomputable def dotList (a b : List ℝ) : ℝ :=
  (List.zipWith (fun u v => u * v) a b).sum

/-- The parameters of a `GPTModel` that the forward pass reads: number of
heads, configured sequence length, vocabulary size, the embedding table (as
a row lookup), the positional table `pos_embbedings[0, t, :]`, and the
transformer blocks, each a function of the `(seq, batch, embed)` activation
and an optional expanded attention mask. -/
structure GPTParams where
  heads : ℕ
  sequence_length : ℕ
  vocab_size : ℕ
  embedRow : ℤ → List ℝ
  posRow : ℕ → List ℝ
  layers : List (List (List (List ℝ)) → Option (List (List (List ℝ))) →
    List (List (List ℝ)))

/-- `GPTModel.forward(x, mask)`: embedding lookup on the `(batch, seq)`
token ids, add `pos_embbedings[:, :current_seq_length, :]`, transpose to
`(seq, batch, embed)`, expand the mask with `create_mask` when one is given
(otherwise every layer receives `None`), fold the transformer blocks, and
apply the weight-tied output projection — `logits[v] = ⟨h, embedding_row v⟩`
(the projection weight IS the embedding table; `bias=False`).  The result
keeps the `(seq, batch, vocab)` layout: `forward` never transposes back. -/
noncomputable def GPTModel.forward (P : GPTParams) (x : List (List ℤ))
    (mask : Option (List (List ℝ))) : List (List (List ℝ)) :=
  let emb := x.map (fun row => row.map P.embedRow)
  let current_seq_length := (x.headD []).length
  let withPos := emb.map (fun row =>
    row.mapIdx (fun t v => List.zipWith (fun u w => u + w) v (P.posRow t)))
  let xt := withPos.transpose
  let m := match mask with
    | some mk => some (GPTModel.create_mask P.heads current_seq_length mk)
    | none => none
  let h := P.layers.foldl (fun acc layer => layer acc m) xt
  h.map (fun slab => slab.map (fun v =>
    (List.range P.vocab_size).map (fun tok => dotList v (P.embedRow (tok : ℤ)))))

/-- The `for i in range(model.sequence_length)` loop of `generate_text`,
with `fuel` the remaining iterations and `step` the index fed to the
sampling oracle.  Each iteration runs the full current sequence through the
model with no mask (`model(input_ids)` — the mask argument defaults to
`None`), takes `outputs[0, -1, :]` (under the `(seq, batch, vocab)` layout
of `forward` this is sequence position 0, last batch row) divided by
`temperature`, applies nucleus filtering, softmaxes, and samples; if the
sampled token equals `eot_token` the loop stops — without appending it —
otherwise the token is concatenated along the last dimension and the loop
repeats. -/
noncomputable def generateLoop (P : GPTParams) (sample : ℕ → List ℝ → ℤ)
    (eot_token : ℤ) (temperature top_p : ℝ) (step fuel : ℕ)
    (input_ids : List (List ℤ)) : List (List ℤ) :=
  match fuel with
  | 0 => input_ids
  | fuel + 1 =>
    let outputs := GPTModel.forward P input_ids none
    let logits := ((outputs.headD []).getLastD []).map (fun z => z / temperature)
    let filtered_logits := top_p_filteringL logits top_p
    let probabilities := softmaxE filtered_logits
    let next_token_id := sample step probabilities
    if next_token_id = eot_token then input_ids
    else
      generateLoop P sample eot_token temperature top_p (step + 1) fuel
        (input_ids.map (fun row => row ++ [next_token_id]))

/-- `generate_text(input_text, tokenizer, model, temperature, top_p)`:
reject empty input text (`if not input_text.strip()`, i.e. the text is empty
or all-whitespace), reject untokenizable input, then run the decoding loop
on the prompt as a `(1, n)` tensor and return `input_ids[0]` (the token
sequence handed to `tokenizer.decode`, which is an external collaborator).
The source contains no validation of `temperature` or `top_p`. -/
noncomputable def generate_text (P : GPTParams) (encode : String → List ℤ)
    (eot_token : ℤ) (sample : ℕ → List ℝ → ℤ) (input_text : String)
    (temperature top_p : ℝ) : Except String (List ℤ) :=
  if input_text.toList.all Char.isWhitespace then Except.error "Input text is empty"
  else
    let input_ids := encode input_text
    if input_ids = [] then Except.error "Input text could not be tokenized"
    else
      Except.ok ((generateLoop P sample eot_token temperature top_p 0
        P.sequence_length [input_ids]).headD [])

/-- A toy model configuration: one head, vocabulary size 3, embedding
dimension 1, no transformer blocks. -/
noncomputable def toyParams : GPTParams where
  heads := 1
  sequence_length := 4
  vocab_size := 3
  embedRow := fun t => [(t : ℝ)]
  posRow := fun t => [(t : ℝ)]
  layers := []

/-- C1 counterexample: toy model (vocab 3, `eot_token = 2`), prompt encoding
`[0]`, and a sampler that always returns the argmax-favoured token 2: the
loop halts at the first step, but because the source `break`s before the
append, the returned token sequence is the bare prompt `[0]`, not
`prompt_tokens ++ [eot_token] = [0, 2]` as the claim states. -/
theorem C1_counterexample :
    generate_text toyParams (fun _ => [0]) 2 (fun _ _ => 2) "A" 1 (9 / 10) =
      Except.ok [0] ∧
    (Except.ok [0] : Except String (List ℤ)) ≠ Except.ok [0, 2] := by
  constructor
  · rfl
  · simp

/-- C1 (amended): whenever the token sampled at the first decoding step is
the tokenizer's `eot_token` (and the prompt is nonempty and tokenizable),
the decoding loop halts within one step and the returned token sequence is
exactly the prompt's encoded tokens — the eot token is *not* appended
(`break` precedes the concatenation in the source). -/
theorem C1_eot_first_step_halts (P : GPTParams) (encode : String → List ℤ)
    (eot_token : ℤ) (sample : ℕ → List ℝ → ℤ) (input_text : String)
    (temperature top_p : ℝ)
    (htext : ¬ input_text.toList.all Char.isWhitespace = true)
    (htok : ¬ encode input_text = [])
    (hsample : ∀ p, sample 0 p = eot_token) :
    generate_text P encode eot_token sample input_text temperature top_p =
      Except.ok (encode input_text) := by
  unfold generate_text
  rw [if_neg htext]
  simp only
  rw [if_neg htok]
  cases hseq : P.sequence_length with
  | zero => simp [generateLoop]
  | succ m =>
    unfold generateLoop
    simp [hsample]

/-- C1 witness: the amended theorem applied to the toy model, prompt `"A"`
encoding to `[0]`, eot token 2, and a sampler that returns 2 at step 0. -/
theorem C1_witness :
    ¬ ("A".toList.all Char.isWhitespace = true) ∧ ¬ (([0] : List ℤ) = []) ∧
    generate_text toyParams (fun _ => [0]) 2 (fun _ _ => 2) "A" 1 (9 / 10) =
      Except.ok [0] :=
  ⟨by decide, by decide,
    C1_eot_first_step_halts toyParams (fun _ => [0]) 2 (fun _ _ => 2) "A" 1
      (9 / 10) (by decide) (by decide) (fun _ => rfl)⟩

/-- C4: `generate_text` performs no temperature validation.  With
`temperature = -1 ≤ 0` on the toy model (`sequence_length = 1`,
`eot_token = 2`, sampler returning 5) the call is not rejected: sampling
takes place — the sampled token 5 is appended — and the call returns
normally with `[0, 5]`. -/
theorem C4_no_temperature_validation :
    (-1 : ℝ) ≤ 0 ∧
    generate_text { toyParams with sequence_length := 1 } (fun _ => [0]) 2
      (fun _ _ => 5) "A" (-1) (9 / 10) = Except.ok [0, 5] := by
  constructor
  · norm_num
  · rfl

/-- Two lists of transformer blocks that behave identically whenever they
receive no attention mask. -/
def layersAgreeOnNone
    (l1 l2 : List (List (List (List ℝ)) → Option (List (List (List ℝ))) →
      List (List (List ℝ)))) : Prop :=
  List.Forall₂ (fun f g => ∀ x, f x none = g x none) l1 l2

theorem foldl_layers_congr {T M : Type}
    (l1 l2 : List (T → Option M → T))
    (h : List.Forall₂ (fun f g => ∀ x, f x none = g x none) l1 l2)
    (acc : T) :
    l1.foldl (fun a f => f a none) acc = l2.foldl (fun a f => f a none) acc := by
  induction h generalizing acc with
  | nil => rfl
  | cons hfg _ ih =>
    simp only [List.foldl_cons]
    rw [hfg]
    exact ih _

theorem forward_none_congr (P : GPTParams)
    (layers2 : List (List (List (List ℝ)) → Option (List (List (List ℝ))) →
      List (List (List ℝ))))
    (h : layersAgreeOnNone P.layers layers2) (x : List (List ℤ)) :
    GPTModel.forward P x none = GPTModel.forward { P with layers := layers2 } x none := by
  unfold GPTModel.forward
  simp only
  congr 1
  exact foldl_layers_congr _ _ h _

theorem generateLoop_layers_congr (P : GPTParams)
    (layers2 : List (List (List (List ℝ)) → Option (List (List (List ℝ))) →
      List (List (List ℝ))))
    (h : layersAgreeOnNone P.layers layers2)
    (sample : ℕ → List ℝ → ℤ) (eot_token : ℤ) (temperature top_p : ℝ) :
    ∀ (fuel step : ℕ) (input_ids : List (List ℤ)),
      generateLoop P sample eot_token temperature top_p step fuel input_ids =
      generateLoop { P with layers := layers2 } sample eot_token temperature
        top_p step fuel input_ids := by
  intro fuel
  induction fuel with
  | zero => intro step ids; rfl
  | succ m ih =>
    intro step ids
    unfold generateLoop
    rw [forward_none_congr P layers2 h ids]
    simp only
    split
    · rfl
    · exact ih _ _

/-- C10: during a generation call every forward pass runs with
`mask = None`, so no padding and no causal masking reaches any layer at any
decoding step.  Formally: the behaviour of `forward` with `mask = none`, and
of the whole `generate_text` call, is invariant under replacing the
transformer blocks by any blocks that agree with them on mask `none` — the
blocks' behaviour on any non-`none` mask is never exercised. -/
theorem C10_generation_mask_is_none (P : GPTParams)
    (layers2 : List (List (List (List ℝ)) → Option (List (List (List ℝ))) →
      List (List (List ℝ))))
    (h : layersAgreeOnNone P.layers layers2) :
    (∀ x, GPTModel.forward P x none =
      GPTModel.forward { P with layers := layers2 } x none) ∧
    (∀ (encode : String → List ℤ) (eot_token : ℤ) (sample : ℕ → List ℝ → ℤ)
      (input_text : String) (temperature top_p : ℝ),
      generate_text P encode eot_token sample input_text temperature top_p =
      generate_text { P with layers := layers2 } encode eot_token sample
        input_text temperature top_p) := by
  refine ⟨forward_none_congr P layers2 h, ?_⟩
  intro encode eot_token sample input_text temperature top_p
  unfold generate_text
  split
  · rfl
  · simp only
    split
    · rfl
    · rw [generateLoop_layers_congr P layers2 h]

/-- A transformer block that ignores its mask. -/
noncomputable def idLayer : List (List (List ℝ)) → Option (List (List (List ℝ))) →
    List (List (List ℝ)) := fun x _ => x

/-- A transformer block that returns garbage if it ever receives a mask. -/
noncomputable def maskSensitiveLayer : List (List (List ℝ)) →
    Option (List (List (List ℝ))) → List (List (List ℝ)) := fun x m =>
  match m with
  | none => x
  | some mk => []

/-- C10 witness: the invariance applied to the toy model with a single
identity block against a block that differs on every non-`none` mask. -/
theorem C10_witness :
    generate_text { toyParams with layers := [idLayer] } (fun _ => [0]) 2
      (fun _ _ => 5) "A" 1 (9 / 10) =
    generate_text { toyParams with layers := [maskSensitiveLayer] }
      (fun _ => [0]) 2 (fun _ _ => 5) "A" 1 (9 / 10) :=
  (C10_generation_mask_is_none { toyParams with layers := [idLayer] }
    [maskSensitiveLayer]
    (List.Forall₂.cons (fun x => rfl) List.Forall₂.nil)).2
    (fun _ => [0]) 2 (fun _ _ => 5) "A" 1 (9 / 10)
